import Mathlib

/-!
Shallow embedding of `web_scraper.py` (class `WebScraper`). Python strings
are modelled as `List Char`; parsed HTML as a tree of nodes; the external
collaborators (HTTP via `requests`, robots.txt retrieval via
`RobotFileParser`, BeautifulSoup's parser, `urllib.parse.urljoin`) as
explicit functional parameters, so each theorem quantifies over their
behaviour.
-/

set_option autoImplicit false

namespace WebScraper

/-- Python strings are modelled as lists of characters, so that slicing and
length facts are ordinary list lemmas. -/
abbrev Str := List Char

/-- Python `s.strip()` with no argument: remove leading and trailing
whitespace. -/
def pyStrip (s : Str) : Str :=
  ((s.dropWhile Char.isWhitespace).reverse.dropWhile Char.isWhitespace).reverse

/-- Python `len(s.split())`: the number of maximal non-whitespace runs. -/
def countWords (s : Str) : Nat :=
  (s.foldl (fun acc c =>
    if c.isWhitespace then (acc.1, false)
    else if acc.2 then acc else (acc.1 + 1, true)) ((0 : Nat), false)).1

/-- Python `sep.join(parts)`. -/
def pyJoin (sep : Str) : List Str → Str
  | [] => []
  | [x] => x
  | x :: y :: rest => x ++ sep ++ pyJoin sep (y :: rest)

/-- Python `text.split(". ")` as used by `summarize_text`: split at each
leftmost occurrence of the two-character separator. -/
def pySplitDot : Str → List Str
  | [] => [[]]
  | '.' :: ' ' :: rest => [] :: pySplitDot rest
  | c :: rest =>
    match pySplitDot rest with
    | [] => [[c]]
    | h :: t => (c :: h) :: t

/-- Model of `WebScraper.summarize_text`: when the text splits into more
than three ". "-separated segments, keep the first three joined back by
". " and append a literal "..."; otherwise return the text unchanged. -/
def summarize_text (text : Str) : Str :=
  let sentences := pySplitDot text
  if 3 < sentences.length then pyJoin ". ".toList (sentences.take 3) ++ "...".toList
  else text

mutual
/-- Parsed HTML node: a tag element with its attributes and children, or a
text node (bs4 `NavigableString`). -/
inductive Node where
  | elem (tag : Str) (attrs : List (Str × Str)) (children : NodeList)
  | txt (s : Str)

/-- Child lists, as a mutual inductive so that tree traversals are
structurally recursive and reduce inside `decide`/`rfl`. -/
inductive NodeList where
  | nil
  | cons (hd : Node) (tl : NodeList)
end

/-- Conversion from ordinary lists, for writing concrete documents. -/
def listToNodeList : List Node → NodeList
  | [] => .nil
  | n :: rest => .cons n (listToNodeList rest)

/-- Convenience constructor for a concrete element node. -/
def el (tag : String) (attrs : List (String × String)) (children : List Node) : Node :=
  .elem tag.toList (attrs.map fun p => (p.1.toList, p.2.toList)) (listToNodeList children)

/-- Convenience constructor for a concrete text node. -/
def tx (s : String) : Node := .txt s.toList

/-- Tag test: `n` is an element with tag name `t`. -/
def isTag (t : Str) : Node → Bool
  | .elem tg _ _ => decide (tg = t)
  | .txt _ => false

/-- Attribute lookup `n.attrs.get(k)`; `n["k"]` raises `KeyError` exactly
when this is `none` (HTML parsers keep the first of duplicate attributes). -/
def getAttr (k : Str) : Node → Option Str
  | .elem _ attrs _ => attrs.lookup k
  | .txt _ => none

/-- Test for `find_all("a", href=True)` membership: an anchor element that
carries an `href` attribute. -/
def isAnchorWithHref (n : Node) : Bool :=
  isTag "a".toList n && (getAttr "href".toList n).isSome

/-- Test for `find("meta", attrs=\x7b"name": v\x7d)` membership. -/
def isMetaNamed (v : Str) (n : Node) : Bool :=
  isTag "meta".toList n && decide (getAttr "name".toList n = some v)

mutual
/-- Subtree filter for `decompose()`: drop every element whose tag is in
`bad` together with its whole subtree. -/
def removeTagsN (bad : List Str) : Node → Option Node
  | .txt s => some (.txt s)
  | .elem t a ch => if t ∈ bad then none else some (.elem t a (removeTagsL bad ch))

/-- List version of `removeTagsN`. -/
def removeTagsL (bad : List Str) : NodeList → NodeList
  | .nil => .nil
  | .cons n rest =>
    match removeTagsN bad n with
    | none => removeTagsL bad rest
    | some n2 => .cons n2 (removeTagsL bad rest)
end

mutual
/-- bs4 `find(...)`: the first node in document (preorder) order satisfying
the predicate, the node itself included. -/
def findFirstN (p : Node → Bool) : Node → Option Node
  | .txt s => if p (.txt s) then some (.txt s) else none
  | .elem t a ch =>
    if p (.elem t a ch) then some (.elem t a ch) else findFirstL p ch

/-- List version of `findFirstN`, scanning siblings left to right. -/
def findFirstL (p : Node → Bool) : NodeList → Option Node
  | .nil => none
  | .cons n rest =>
    match findFirstN p n with
    | some r => some r
    | none => findFirstL p rest
end

mutual
/-- bs4 `find_all(...)`: every node in document order satisfying the
predicate. -/
def findAllN (p : Node → Bool) : Node → List Node
  | .txt s => if p (.txt s) then [.txt s] else []
  | .elem t a ch =>
    (if p (.elem t a ch) then [Node.elem t a ch] else []) ++ findAllL p ch

/-- List version of `findAllN`. -/
def findAllL (p : Node → Bool) : NodeList → List Node
  | .nil => []
  | .cons n rest => findAllN p n ++ findAllL p rest
end

mutual
/-- bs4 `get_text()`: concatenation of all descendant text, in order. -/
def getTextN : Node → Str
  | .txt s => s
  | .elem _ _ ch => getTextL ch

/-- List version of `getTextN`. -/
def getTextL : NodeList → Str
  | .nil => []
  | .cons n rest => getTextN n ++ getTextL rest
end

/-- bs4 `Tag.string`: with exactly one child, the child's string (a text
child directly, a tag child recursively); otherwise Python `None`. -/
def tagString : Node → Option Str
  | .txt s => some s
  | .elem _ _ (.cons c .nil) => tagString c
  | .elem _ _ _ => none

/-- Children of a node: bs4 `find_all` on a tag searches its descendants,
never the tag itself. -/
def childrenOf : Node → NodeList
  | .txt _ => .nil
  | .elem _ _ ch => ch

/-- Exceptions the scraping code can raise: `tag["content"]` on a tag
without that attribute raises `KeyError`. -/
inductive PyErr where
  | keyError (k : Str)
deriving DecidableEq

/-- Result dict of the scraper. `title`'s `none` models the Python `None`
that `Tag.string` can yield; `none` in `description`/`keywords` models the
key being absent altogether, as in the sentinel dicts of `scrape_page`. -/
structure FetchResult where
  title : Option Str
  description : Option Str
  keywords : Option Str
  content : Str
  links : List Str
deriving DecidableEq

/-- Model of `WebScraper.extract_metadata`: title from `soup.title.string`
(defaulting to "No Title" only when there is no title tag at all), and
description/keywords from the `content` attribute of the matching `<meta>`
tag — whose subscript raises `KeyError` when the attribute is missing. -/
def extract_metadata (soup : NodeList) : Except PyErr (Option Str × Str × Str) := do
  let title : Option Str :=
    match findFirstL (isTag "title".toList) soup with
    | none => some "No Title".toList
    | some t => tagString t
  let descr : Str ←
    match findFirstL (isMetaNamed "description".toList) soup with
    | none => Except.ok "No Description".toList
    | some m =>
      match getAttr "content".toList m with
      | some v => Except.ok v
      | none => Except.error (.keyError "content".toList)
  let keyw : Str ←
    match findFirstL (isMetaNamed "keywords".toList) soup with
    | none => Except.ok "No Keywords".toList
    | some m =>
      match getAttr "content".toList m with
      | some v => Except.ok v
      | none => Except.error (.keyError "content".toList)
  return (title, descr, keyw)

/-- Elements removed by `extract_content` before any extraction. -/
def badTags : List Str := ["script", "style", "nav", "footer", "header"].map String.toList

/-- Main-content node chosen by `extract_content`:
`soup.find("main") or soup.find("article") or soup.find("section") or
soup.find("div")`; `none` stands for the final fall-through to `soup`
itself (bs4 tags are always truthy — `Tag` overrides `bool` to `True` —
so the `or` chain falls through only on `None`). -/
def main_content (soup : NodeList) : Option Node :=
  match findFirstL (isTag "main".toList) soup with
  | some n => some n
  | none =>
    match findFirstL (isTag "article".toList) soup with
    | some n => some n
    | none =>
      match findFirstL (isTag "section".toList) soup with
      | some n => some n
      | none => findFirstL (isTag "div".toList) soup

/-- Paragraph list of `extract_content`: `main_content.find_all("p")`,
searching the selected node's descendants, or the whole document when the
selection fell through to `soup`. -/
def paragraphs (soup : NodeList) : List Node :=
  match main_content soup with
  | some n => findAllL (isTag "p".toList) (childrenOf n)
  | none => findAllL (isTag "p".toList) soup

/-- Body text before summarization:
`" ".join(p.get_text().strip() for p in paragraphs)[:2400]`. -/
def bodyText (soup : NodeList) : Str :=
  (pyJoin [' '] ((paragraphs soup).map fun p => pyStrip (getTextN p))).take 2400

/-- Resolved links before the `set` pass:
`[urljoin(url, a["href"]) for a in soup.find_all("a", href=True)][:10]` —
the first ten occurrences, duplicates included. -/
def rawLinks (urljoin : Str → Str → Str) (soup : NodeList) (url : Str) : List Str :=
  ((findAllL isAnchorWithHref soup).map
    fun a => urljoin url ((getAttr "href".toList a).getD [])).take 10

/-- Content value of the returned dict: the body text, summarized when
summarization is on and the text has over 100 words, and replaced by the
literal "No main content found." when (and only when) it is empty. -/
def finalContent (summarizeContent : Bool) (soup : NodeList) : Str :=
  let content := bodyText soup
  let content :=
    if summarizeContent = true ∧ 100 < countWords content then summarize_text content
    else content
  if content = [] then "No main content found.".toList else content

/-- Model of `WebScraper.extract_content`. `urljoin` stands for
`urllib.parse.urljoin`. CPython's `list(set(links))` returns the distinct
values in an unspecified order; `List.dedup` is our canonical
representative, and order-sensitive facts are never claimed about it. -/
def extract_content (summarizeContent : Bool) (urljoin : Str → Str → Str)
    (doc : NodeList) (url : Str) : Except PyErr FetchResult := do
  let soup := removeTagsL badTags doc
  let (title, descr, keyw) ← extract_metadata soup
  return { title := title, description := some descr, keywords := some keyw,
           content := finalContent summarizeContent soup,
           links := (rawLinks urljoin soup url).dedup }

/-- Trace entries of the `fetch_page` retry loop. -/
inductive FetchEvent where
  | attempt (n : Nat)
  | sleep (secs : Nat)
deriving DecidableEq

/-- Retry loop of `fetch_page` over the given attempt indices. `get` is the
outcome of one HTTP GET (`some body` on success; `none` when
`requests.get` or `raise_for_status` raises `RequestException`): on failure
the code logs, sleeps `2 ^ attempt` seconds, and continues the loop. -/
def fetch_attempts (get : Nat → Option Str) : List Nat → Option Str × List FetchEvent
  | [] => (none, [])
  | a :: rest =>
    match get a with
    | some body => (some body, [.attempt a])
    | none =>
      let r := fetch_attempts get rest
      (r.1, .attempt a :: .sleep (2 ^ a) :: r.2)

/-- Model of `WebScraper.fetch_page`: `for attempt in range(max_retries)`
with the per-attempt outcome supplied by `get`; yields `none` after
exhausting all attempts, together with the attempt/sleep trace. -/
def fetch_page (maxRetries : Nat) (get : Nat → Option Str) : Option Str × List FetchEvent :=
  fetch_attempts get (List.range maxRetries)

/-- Remainder of a URL after its first "://", locating the authority
component of an absolute URL. -/
def afterSchemeMarker : Str → Option Str
  | ':' :: '/' :: '/' :: rest => some rest
  | _ :: rest => afterSchemeMarker rest
  | [] => none

/-- Authority component (`urlparse(url).netloc`) for URLs of the shape
`scheme://authority/...`: everything after "://" up to the next '/', '?'
or '#'. The netloc keeps any port and carries no scheme — this is the key
`respect_rate_limit` uses. -/
def urlNetloc (url : Str) : Str :=
  match afterSchemeMarker url with
  | some rest => rest.takeWhile fun c => decide (c ≠ '/' ∧ c ≠ '?' ∧ c ≠ '#')
  | none => []

/-- Scheme of an absolute URL: the characters before the first ':'. -/
def urlScheme (url : Str) : Str := url.takeWhile fun c => decide (c ≠ ':')

/-- Robots document location used by `can_fetch`:
`f"\x7bscheme\x7d://\x7bnetloc\x7d/robots.txt"`. -/
def robotsUrl (url : Str) : Str :=
  urlScheme url ++ "://".toList ++ urlNetloc url ++ "/robots.txt".toList

/-- Outcome of `RobotFileParser.read()` plus `can_fetch`, supplied as an
oracle keyed by the robots document URL: `Except.error` models any
exception while retrieving or parsing the document; `Except.ok pol` the
parsed policy as a predicate on (user agent, url). -/
abbrev RobotsOracle := Str → Except Str (Str → Str → Bool)

/-- Model of `WebScraper.can_fetch`: consult the robots document at
`robotsUrl url`; on any exception, log and return `true` (fail-open). -/
def can_fetch (robots : RobotsOracle) (userAgent url : Str) : Bool :=
  match robots (robotsUrl url) with
  | .error _ => true
  | .ok pol => pol userAgent url

/-- Python dict update `d[k] = v`: replace the value at an existing key in
place, else append the new pair. -/
def dictSet {α : Type} (m : List (Str × α)) (k : Str) (v : α) : List (Str × α) :=
  match m with
  | [] => [(k, v)]
  | (k2, v2) :: rest => if k2 = k then (k, v) :: rest else (k2, v2) :: dictSet rest k v

/-- Model of `WebScraper.respect_rate_limit`: `now` is the first
`time.time()` reading, `now2` the second one taken after any sleep.
Returns the seconds slept and the updated `last_request_time` table, which
is keyed by `urlparse(url).netloc`. -/
def respect_rate_limit (rateLimit : Nat) (table : List (Str × Nat)) (url : Str)
    (now now2 : Nat) : Nat × List (Str × Nat) :=
  let domain := urlNetloc url
  let sleepFor : Nat :=
    match table.lookup domain with
    | some t => if now - t < rateLimit then rateLimit - (now - t) else 0
    | none => 0
  (sleepFor, dictSet table domain now2)

/-- External collaborators and configuration of one `WebScraper` instance,
as far as `scrape_page` consults them: the robots oracle, the overall
outcome of `fetch_page`/`fetch_js_page` per URL, BeautifulSoup's parse of
a fetched body, and `urljoin`. -/
structure Scraper where
  userAgent : Str
  enableJs : Bool
  summarizeContent : Bool
  robots : RobotsOracle
  fetchPlain : Str → Option Str
  fetchJs : Str → Option Str
  parse : Str → NodeList
  urljoin : Str → Str → Str

/-- Trace entries of `scrape_page`, recording which collaborators ran. -/
inductive ScrapeEvent where
  | robotsCheck
  | fetchPlainCall
  | fetchJsCall
deriving DecidableEq

/-- Sentinel dict for a robots denial: exactly
`\x7b"content": "Access denied by robots.txt", "links": [], "title": "No Title"\x7d`. -/
def robotsSentinel : FetchResult :=
  { title := some "No Title".toList, description := none, keywords := none,
    content := "Access denied by robots.txt".toList, links := [] }

/-- Sentinel dict for a failed fetch: exactly
`\x7b"content": f"Failed to fetch \x7burl\x7d", "links": [], "title": "No Title"\x7d`. -/
def fetchFailSentinel (url : Str) : FetchResult :=
  { title := some "No Title".toList, description := none, keywords := none,
    content := "Failed to fetch ".toList ++ url, links := [] }

/-- Model of `WebScraper.scrape_page`, also yielding the trace of external
calls. The `if not html` truthiness test maps both `None` and the empty
body to the failed-fetch sentinel. -/
def scrape_page (w : Scraper) (url : Str) : Except PyErr FetchResult × List ScrapeEvent :=
  if can_fetch w.robots w.userAgent url = false then
    (.ok robotsSentinel, [.robotsCheck])
  else
    let fetched := if w.enableJs then (w.fetchJs url, ScrapeEvent.fetchJsCall)
                   else (w.fetchPlain url, ScrapeEvent.fetchPlainCall)
    match fetched.1 with
    | none => (.ok (fetchFailSentinel url), [.robotsCheck, fetched.2])
    | some body =>
      if body = [] then (.ok (fetchFailSentinel url), [.robotsCheck, fetched.2])
      else (extract_content w.summarizeContent w.urljoin (w.parse body) url,
            [.robotsCheck, fetched.2])

/-- Loop of `scrape_multiple_pages`: `results[url] = self.scrape_page(url)`
in order; the first uncaught exception aborts the whole loop, losing the
remaining URLs. -/
def scrape_pages_from (w : Scraper) : List Str → List (Str × FetchResult) →
    Except PyErr (List (Str × FetchResult))
  | [], acc => .ok acc
  | u :: rest, acc =>
    match (scrape_page w u).1 with
    | .error e => .error e
    | .ok r => scrape_pages_from w rest (dictSet acc u r)

/-- Model of `WebScraper.scrape_multiple_pages`: the results dict in
insertion order. -/
def scrape_multiple_pages (w : Scraper) (urls : List Str) :
    Except PyErr (List (Str × FetchResult)) :=
  scrape_pages_from w urls []

mutual
/-- Every node of a subtree, root included, in document order. -/
def selfAndBelowN : Node → List Node
  | .txt s => [.txt s]
  | .elem t a ch => .elem t a ch :: selfAndBelowL ch

/-- List version of `selfAndBelowN`. -/
def selfAndBelowL : NodeList → List Node
  | .nil => []
  | .cons n rest => selfAndBelowN n ++ selfAndBelowL rest
end

/-- Strict descendants of a node: everything below it, itself excluded. -/
def descendants (n : Node) : List Node := selfAndBelowL (childrenOf n)

/-- Projection of a fetch-trace entry to its sleep duration, if any. -/
def sleepSecs : FetchEvent → Option Nat
  | .sleep s => some s
  | .attempt _ => none

/-- Scraper whose robots retrieval and every page fetch fail, for driving
the sentinel paths on concrete URLs. -/
def scraperAllFail : Scraper :=
  { userAgent := [], enableJs := false, summarizeContent := true,
    robots := fun _ => Except.error [], fetchPlain := fun _ => none,
    fetchJs := fun _ => none, parse := fun _ => .nil, urljoin := fun _ h => h }

/-- A 2400-character URL. -/
def longUrl : Str := List.replicate 2400 'a'

/-- Document with eleven anchors whose hrefs take ten distinct values, the
first one twice. -/
def docElevenAnchors : NodeList := listToNodeList
  [ el "a" [("href", "u0")] [], el "a" [("href", "u0")] [],
    el "a" [("href", "u1")] [], el "a" [("href", "u2")] [],
    el "a" [("href", "u3")] [], el "a" [("href", "u4")] [],
    el "a" [("href", "u5")] [], el "a" [("href", "u6")] [],
    el "a" [("href", "u7")] [], el "a" [("href", "u8")] [],
    el "a" [("href", "u9")] [] ]

/-- Document with three anchors over two distinct hrefs. -/
def docTwoAnchors : NodeList := listToNodeList
  [ el "a" [("href", "x")] [], el "a" [("href", "x")] [], el "a" [("href", "y")] [] ]

/-- Extraction result for `docTwoAnchors` with summarization off and
`urljoin` returning the href unchanged. -/
def resultTwoAnchors : FetchResult :=
  { title := some "No Title".toList, description := some "No Description".toList,
    keywords := some "No Keywords".toList, content := "No main content found.".toList,
    links := ["x".toList, "y".toList] }

/-- Scraper whose fetches succeed with a page whose only element is a
`<meta name="description">` tag carrying no `content` attribute. -/
def scraperBadMeta : Scraper :=
  { userAgent := [], enableJs := false, summarizeContent := true,
    robots := fun _ => Except.error [], fetchPlain := fun _ => some "m".toList,
    fetchJs := fun _ => none,
    parse := fun _ => listToNodeList [el "meta" [("name", "description")] []],
    urljoin := fun _ h => h }

/-- Scraper whose robots policy denies every fetch. -/
def scraperDenied : Scraper :=
  { userAgent := [], enableJs := false, summarizeContent := true,
    robots := fun _ => Except.ok (fun _ _ => false),
    fetchPlain := fun _ => some "m".toList, fetchJs := fun _ => none,
    parse := fun _ => .nil, urljoin := fun _ h => h }

/-- Scraper whose fetch succeeds with an empty body. -/
def scraperEmptyBody : Scraper :=
  { userAgent := [], enableJs := false, summarizeContent := true,
    robots := fun _ => Except.error [], fetchPlain := fun _ => some [],
    fetchJs := fun _ => none, parse := fun _ => .nil, urljoin := fun _ h => h }

/-- Document carrying both a `<div>` (first) and a `<main>`. -/
def docWithMain : NodeList := listToNodeList
  [ el "div" [] [], el "main" [] [el "p" [] [tx "hi"]] ]

/-! Lemmas about the split/join pair behind `summarize_text`. -/

theorem pySplitDot_cons_eq (c : Char) (rest : Str)
    (hneg : ∀ r2 : Str, c = '.' → rest = ' ' :: r2 → False) :
    pySplitDot (c :: rest) =
      match pySplitDot rest with
      | [] => [[c]]
      | h :: t => (c :: h) :: t := by
  rw [pySplitDot.eq_def]
  split
  next heq => cases heq
  next r heq =>
    injection heq with h1 h2
    exact (hneg r h1 h2).elim
  next c2 r2 hn heq =>
    injection heq with h1 h2
    subst h1; subst h2
    rfl

theorem pySplitDot_ne_nil (s : Str) : pySplitDot s ≠ [] := by
  induction s using pySplitDot.induct with
  | case1 => simp [pySplitDot]
  | case2 rest ih => simp [pySplitDot]
  | case3 c rest hneg hsplit ih => rw [pySplitDot_cons_eq c rest hneg, hsplit]; simp
  | case4 c rest hneg h1 t1 hsplit ih => rw [pySplitDot_cons_eq c rest hneg, hsplit]; simp

theorem pyJoin_pySplitDot (s : Str) : pyJoin ". ".toList (pySplitDot s) = s := by
  induction s using pySplitDot.induct with
  | case1 => rfl
  | case2 rest ih =>
    cases e : pySplitDot rest with
    | nil => exact absurd e (pySplitDot_ne_nil rest)
    | cons h1 t1 =>
      rw [e] at ih
      show pyJoin ". ".toList ([] :: pySplitDot rest) = _
      rw [e, pyJoin]
      simpa using ih
  | case3 c rest hneg hsplit ih => exact absurd hsplit (pySplitDot_ne_nil rest)
  | case4 c rest hneg h1 t1 hsplit ih =>
    rw [hsplit] at ih
    rw [pySplitDot_cons_eq c rest hneg, hsplit]
    cases t1 with
    | nil => simp [pyJoin] at ih ⊢; exact ih
    | cons h2 t2 =>
      simp only [pyJoin, List.cons_append] at ih ⊢
      rw [← ih]

theorem pyJoin_take_drop3 (sep : Str) (l : List Str) (h : 3 < l.length) :
    pyJoin sep l = pyJoin sep (l.take 3) ++ sep ++ pyJoin sep (l.drop 3) := by
  match l, h with
  | a :: b :: c :: d :: rest, _ =>
    simp only [List.take, List.drop]
    simp [pyJoin, List.append_assoc]

theorem summarize_text_length (t : Str) : (summarize_text t).length ≤ t.length + 1 := by
  simp only [summarize_text]
  split
  case isTrue h =>
    have hr := pyJoin_pySplitDot t
    have hd := pyJoin_take_drop3 ". ".toList (pySplitDot t) h
    have hlen : t.length =
        (pyJoin ". ".toList ((pySplitDot t).take 3)).length + 2 +
          (pyJoin ". ".toList ((pySplitDot t).drop 3)).length := by
      conv_lhs => rw [← hr, hd]
      simp [List.length_append]
      omega
    simp only [List.length_append]
    have h3 : ("...".toList).length = 3 := rfl
    omega
  case isFalse h => omega

/-! Lemmas about the extraction pipeline. -/

theorem bodyText_length (soup : NodeList) : (bodyText soup).length ≤ 2400 := by
  simp only [bodyText]
  exact List.length_take_le 2400 _

theorem finalContent_length (sc : Bool) (soup : NodeList) :
    (finalContent sc soup).length ≤ 2401 := by
  have hb := bodyText_length soup
  have hs := summarize_text_length (bodyText soup)
  simp only [finalContent]
  split <;> split
  · decide
  · omega
  · decide
  · omega

theorem extract_content_ok (sc : Bool) (uj : Str → Str → Str) (d : NodeList)
    (url : Str) (r : FetchResult) (h : extract_content sc uj d url = .ok r) :
    r.content = finalContent sc (removeTagsL badTags d) ∧
    r.links = (rawLinks uj (removeTagsL badTags d) url).dedup := by
  cases hm : extract_metadata (removeTagsL badTags d) with
  | error e =>
    simp only [extract_content, hm, Bind.bind, Except.bind] at h
    exact Except.noConfusion h
  | ok trip =>
    obtain ⟨t0, d0, k0⟩ := trip
    simp only [extract_content, hm, Bind.bind, Except.bind, pure, Except.pure,
      Except.ok.injEq] at h
    rw [← h]
    exact ⟨rfl, rfl⟩

/-! Lemmas about the retry loop and URL keys. -/

theorem fetch_attempts_all_fail (get : Nat → Option Str) (l : List Nat)
    (h : ∀ a ∈ l, get a = none) :
    fetch_attempts get l =
      (none, (l.map fun a => [FetchEvent.attempt a, FetchEvent.sleep (2 ^ a)]).flatten) := by
  induction l with
  | nil => rfl
  | cons a rest ih =>
    have ha := h a (by simp)
    simp [fetch_attempts, ha, ih (fun b hb => h b (by simp [hb]))]

theorem afterSchemeMarker_append (sch rest : Str) (h : ':' ∉ sch) :
    afterSchemeMarker (sch ++ ':' :: '/' :: '/' :: rest) = some rest := by
  induction sch with
  | nil => rfl
  | cons c cs ih =>
    have hc : c ≠ ':' := fun e => h (by simp [e])
    rw [List.cons_append, afterSchemeMarker.eq_def]
    split
    next heq =>
      injection heq with h1 h2
      exact absurd h1 hc
    next heq =>
      injection heq with h1 h2
      rw [← h2]
      exact ih fun hm => h (List.mem_cons_of_mem _ hm)
    next heq => cases heq

theorem urlNetloc_scheme_independent (sch1 sch2 rest : Str)
    (h1 : ':' ∉ sch1) (h2 : ':' ∉ sch2) :
    urlNetloc (sch1 ++ ':' :: '/' :: '/' :: rest) =
      urlNetloc (sch2 ++ ':' :: '/' :: '/' :: rest) := by
  simp [urlNetloc, afterSchemeMarker_append _ _ h1, afterSchemeMarker_append _ _ h2]

/-! Soundness of `find_all`: results satisfy the predicate and live in the
searched subtree. -/

mutual
theorem findAllN_sound (p : Node → Bool) :
    ∀ (n : Node), ∀ q ∈ findAllN p n, q ∈ selfAndBelowN n ∧ p q = true
  | Node.txt s => by
    intro q hq
    by_cases hp : p (.txt s) = true
    · simp only [findAllN, hp, if_true, List.mem_singleton] at hq
      subst hq
      exact ⟨by simp [selfAndBelowN], hp⟩
    · simp [findAllN, hp] at hq
  | Node.elem t a ch => by
    intro q hq
    simp only [findAllN, List.mem_append] at hq
    rcases hq with hq | hq
    · by_cases hp : p (.elem t a ch) = true
      · simp only [hp, if_true, List.mem_singleton] at hq
        subst hq
        exact ⟨by simp [selfAndBelowN], hp⟩
      · simp [hp] at hq
    · obtain ⟨hin, hpq⟩ := findAllL_sound p ch q hq
      exact ⟨by simp [selfAndBelowN, hin], hpq⟩

theorem findAllL_sound (p : Node → Bool) :
    ∀ (l : NodeList), ∀ q ∈ findAllL p l, q ∈ selfAndBelowL l ∧ p q = true
  | NodeList.nil => by
    intro q hq
    simp [findAllL] at hq
  | NodeList.cons n rest => by
    intro q hq
    simp only [findAllL, List.mem_append] at hq
    rcases hq with hq | hq
    · obtain ⟨hin, hpq⟩ := findAllN_sound p n q hq
      exact ⟨by simp [selfAndBelowL, List.mem_append, hin], hpq⟩
    · obtain ⟨hin, hpq⟩ := findAllL_sound p rest q hq
      exact ⟨by simp [selfAndBelowL, List.mem_append, hin], hpq⟩
end


/-! Claim theorems. -/

/-- C7: `summarize_text` splits on the literal ". "; with at most three
segments it returns the text unchanged, and with more than three it
returns exactly the first three segments rejoined by ". " plus a literal
"..." suffix — and those three segments are genuinely the leading part of
the text, which decomposes around them as shown; in particular
`summarize_text "A. B. C. D." = "A. B. C..."`. -/
theorem claim7_summarize_spec (t : Str) :
    ((pySplitDot t).length ≤ 3 → summarize_text t = t) ∧
    (3 < (pySplitDot t).length →
      summarize_text t = pyJoin ". ".toList ((pySplitDot t).take 3) ++ "...".toList ∧
      t = pyJoin ". ".toList ((pySplitDot t).take 3) ++ ". ".toList ++
        pyJoin ". ".toList ((pySplitDot t).drop 3)) ∧
    summarize_text "A. B. C. D.".toList = "A. B. C...".toList := by
  refine ⟨fun h => ?_, fun h => ⟨?_, ?_⟩, by decide⟩
  · simp [summarize_text, Nat.not_lt.mpr h]
  · simp [summarize_text, h]
  · conv_lhs => rw [← pyJoin_pySplitDot t, pyJoin_take_drop3 ". ".toList _ h]

/-- Witness for C7 at concrete inputs: the >3-segment case on
"A. B. C. D." and the unchanged case on "A. B". -/
theorem claim7_summarize_spec_witness :
    summarize_text "A. B. C. D.".toList =
      pyJoin ". ".toList ((pySplitDot "A. B. C. D.".toList).take 3) ++ "...".toList ∧
    summarize_text "A. B".toList = "A. B".toList :=
  ⟨((claim7_summarize_spec "A. B. C. D.".toList).2.1 (by decide)).1,
   (claim7_summarize_spec "A. B".toList).1 (by decide)⟩

/-- C3 counterexample: with `max_retries = 3` and every attempt failing,
the backoff sleeps are 1s, 2s and 4s — not only 1s and 2s — and the very
last trace event is a 4-second sleep after the final attempt, contradicting
"no backoff sleep after the final attempt". -/
theorem claim3_counterexample :
    (fetch_page 3 fun _ => none).2.filterMap sleepSecs = [1, 2, 4] ∧
    (fetch_page 3 fun _ => none).2.filterMap sleepSecs ≠ [1, 2] ∧
    (fetch_page 3 fun _ => none).2.getLast? = some (FetchEvent.sleep 4) := by decide

/-- C3 amended: when every attempt fails, `fetch_page` with
`max_retries = 3` performs exactly three attempts and returns null, with
backoff sleeps of 1s, 2s and 4s after each failed attempt — including the
4s sleep after the final attempt. -/
theorem claim3_fetch_retry_trace (get : Nat → Option Str) (h : ∀ n, get n = none) :
    fetch_page 3 get =
      (none, [FetchEvent.attempt 0, FetchEvent.sleep 1, FetchEvent.attempt 1,
              FetchEvent.sleep 2, FetchEvent.attempt 2, FetchEvent.sleep 4]) := by
  unfold fetch_page
  rw [fetch_attempts_all_fail get (List.range 3) (fun a _ => h a)]
  rfl

/-- Witness for C3 with the concrete always-failing GET. -/
theorem claim3_fetch_retry_trace_witness :
    fetch_page 3 (fun _ => none) =
      (none, [FetchEvent.attempt 0, FetchEvent.sleep 1, FetchEvent.attempt 1,
              FetchEvent.sleep 2, FetchEvent.attempt 2, FetchEvent.sleep 4]) :=
  claim3_fetch_retry_trace (fun _ => none) (fun _ => rfl)

/-- C4: `scrape_multiple_pages` is NOT exception-free — a page whose only
element is `<meta name="description">` without a `content` attribute makes
`extract_metadata` raise `KeyError`, which escapes `scrape_multiple_pages`
and aborts the remaining URLs: the call on two URLs returns the error with
no mapping for either URL. -/
theorem claim4_scrape_many_raises :
    scrape_multiple_pages scraperBadMeta ["http://a/".toList, "http://b/".toList] =
      Except.error (.keyError "content".toList) := by rfl

/-- C5: whenever retrieving or parsing the robots document raises any
error, `can_fetch` returns `true` (fail-open). -/
theorem claim5_can_fetch_fail_open (robots : RobotsOracle) (ua url e : Str)
    (h : robots (robotsUrl url) = Except.error e) :
    can_fetch robots ua url = true := by
  simp [can_fetch, h]

/-- Witness for C5 with a concrete always-failing robots retrieval. -/
theorem claim5_can_fetch_fail_open_witness :
    can_fetch (fun _ => Except.error "timeout".toList) "ua".toList "http://x/".toList = true :=
  claim5_can_fetch_fail_open (fun _ => Except.error "timeout".toList) "ua".toList
    "http://x/".toList "timeout".toList rfl

/-- Content of the failed-fetch sentinel is 16 characters plus the URL. -/
theorem fetchFailSentinel_content_length (url : Str) :
    (fetchFailSentinel url).content.length = 16 + url.length := by
  show ("Failed to fetch ".toList ++ url).length = 16 + url.length
  rw [List.length_append]
  have h16 : "Failed to fetch ".toList.length = 16 := rfl
  omega

/-- C1 counterexample: on a 2400-character URL whose fetch fails,
`scrape_page` returns the failure sentinel, whose content is
"Failed to fetch " followed by the whole URL — 2416 characters, exceeding
the claimed 2400 bound. -/
theorem claim1_counterexample :
    (scrape_page scraperAllFail longUrl).1 = Except.ok (fetchFailSentinel longUrl) ∧
    (fetchFailSentinel longUrl).content.length = 2416 ∧ 2400 < 2416 := by
  refine ⟨rfl, ?_, by norm_num⟩
  rw [fetchFailSentinel_content_length]
  have h24 : longUrl.length = 2400 := List.length_replicate 2400 'a'
  omega

/-- C1 amended: every successfully returned result has content of length
at most `max 2401 (16 + |url|)`: extraction results are bounded by 2401
(2400 from truncation, plus one more character the summarizer's "..." can
add when the truncated text ends in ". "), while the failed-fetch sentinel
embeds the URL and is bounded only by 16 plus the URL length; the claimed
uniform 2400 bound holds for neither. -/
theorem claim1_content_length_bound (w : Scraper) (url : Str) (r : FetchResult)
    (evs : List ScrapeEvent) (h : scrape_page w url = (Except.ok r, evs)) :
    r.content.length ≤ max 2401 (16 + url.length) := by
  simp only [scrape_page] at h
  split at h
  · rw [Prod.mk.injEq] at h
    obtain ⟨h1, -⟩ := h
    injection h1 with h1
    rw [← h1]
    exact le_trans (by decide) (le_max_left _ _)
  · split at h
    · rw [Prod.mk.injEq] at h
      obtain ⟨h1, -⟩ := h
      injection h1 with h1
      rw [← h1, fetchFailSentinel_content_length]
      exact le_max_right _ _
    · split at h
      · rw [Prod.mk.injEq] at h
        obtain ⟨h1, -⟩ := h
        injection h1 with h1
        rw [← h1, fetchFailSentinel_content_length]
        exact le_max_right _ _
      · rw [Prod.mk.injEq] at h
        obtain ⟨h1, -⟩ := h
        have hb := extract_content_ok _ _ _ _ _ h1
        rw [hb.1]
        exact le_trans (finalContent_length _ _) (le_max_left _ _)

/-- Witness for C1 on a concrete denied URL. -/
theorem claim1_content_length_bound_witness :
    robotsSentinel.content.length ≤ max 2401 (16 + ("http://x/".toList).length) :=
  claim1_content_length_bound scraperDenied "http://x/".toList robotsSentinel
    [ScrapeEvent.robotsCheck] rfl

/-- C2 counterexample: a document with eleven anchors resolving (under an
`urljoin` that returns the href unchanged) to ten distinct URLs, the first
href occurring twice. The code caps at the first ten anchor OCCURRENCES
before deduplicating, so the returned links hold only nine distinct values
even though the document contains ten distinct resolved URLs. -/
theorem claim2_counterexample :
    ((findAllL isAnchorWithHref (removeTagsL badTags docElevenAnchors)).map
        fun a => (getAttr "href".toList a).getD []).dedup.length = 10 ∧
    ((extract_content false (fun _ h => h) docElevenAnchors "u".toList).toOption.map
        fun r => r.links.length) = some 9 := by decide

/-- C2 amended: the returned links are the first ten resolved anchor hrefs
(occurrences, not distinct values) subsequently deduplicated: they are
duplicate-free, number at most ten, and contain exactly the values among
the first ten resolved occurrences — so two anchors resolving to the same
URL contribute one entry, but fewer than ten distinct links can be
returned even when the document has ten or more. -/
theorem claim2_links_dedup_cap (sc : Bool) (uj : Str → Str → Str) (d : NodeList)
    (url : Str) (r : FetchResult) (h : extract_content sc uj d url = Except.ok r) :
    r.links.Nodup ∧ r.links.length ≤ 10 ∧
      ∀ x : Str, x ∈ r.links ↔ x ∈ rawLinks uj (removeTagsL badTags d) url := by
  obtain ⟨-, hl⟩ := extract_content_ok sc uj d url r h
  rw [hl]
  refine ⟨List.nodup_dedup _, ?_, fun x => List.mem_dedup⟩
  have h1 : (rawLinks uj (removeTagsL badTags d) url).dedup.length ≤
      (rawLinks uj (removeTagsL badTags d) url).length :=
    (List.dedup_sublist _).length_le
  have h2 : (rawLinks uj (removeTagsL badTags d) url).length ≤ 10 := by
    simp only [rawLinks]
    exact List.length_take_le 10 _
  omega

/-- Witness for C2 on a three-anchor document with two distinct hrefs. -/
theorem claim2_links_dedup_cap_witness :
    resultTwoAnchors.links.Nodup ∧ resultTwoAnchors.links.length ≤ 10 ∧
      ("x".toList ∈ resultTwoAnchors.links ↔
        "x".toList ∈ rawLinks (fun _ h => h) (removeTagsL badTags docTwoAnchors) "u".toList) := by
  have h := claim2_links_dedup_cap false (fun _ h => h) docTwoAnchors "u".toList
    resultTwoAnchors (by rfl)
  exact ⟨h.1, h.2.1, h.2.2 "x".toList⟩

/-- C6 counterexample: `respect_rate_limit` keys its table by
`urlparse(url).netloc`, not by scheme+host: an http and an https URL on
the same host share one key — so a request through one scheme delays the
other, and a table entry written for the host rate-limits both schemes
(last conjunct: a sleep of 1s occurs although, were schemes distinct
origins, no wait would apply) — while a URL with an explicit port gets a
different key. -/
theorem claim6_counterexample :
    urlNetloc "http://example.com/a".toList = urlNetloc "https://example.com/b".toList ∧
    urlNetloc "http://example.com/a".toList ≠ urlNetloc "http://example.com:8080/a".toList ∧
    (respect_rate_limit 1 [("example.com".toList, 10)]
      "https://example.com/b".toList 10 11).1 = 1 := by decide

/-- C6 amended: the last-request table is keyed by the URL's netloc (host
with optional port, without the scheme): any two URLs with equal netloc —
in particular URLs differing only in scheme or path — are tracked in one
entry, the timestamp update writes that netloc key, and a URL with an
explicit port has a different key than one without. -/
theorem claim6_rate_limit_netloc_key :
    (∀ (rl : Nat) (table : List (Str × Nat)) (u1 u2 : Str) (now now2 : Nat),
      urlNetloc u1 = urlNetloc u2 →
        respect_rate_limit rl table u1 now now2 = respect_rate_limit rl table u2 now now2) ∧
    (∀ (rl : Nat) (table : List (Str × Nat)) (url : Str) (now now2 : Nat),
      (respect_rate_limit rl table url now now2).2 = dictSet table (urlNetloc url) now2) ∧
    (∀ sch1 sch2 rest : Str, ':' ∉ sch1 → ':' ∉ sch2 →
      urlNetloc (sch1 ++ ':' :: '/' :: '/' :: rest) =
        urlNetloc (sch2 ++ ':' :: '/' :: '/' :: rest)) ∧
    urlNetloc "http://example.com/a".toList ≠ urlNetloc "http://example.com:8080/a".toList := by
  refine ⟨fun rl table u1 u2 now now2 h => by simp [respect_rate_limit, h],
    fun rl table url now now2 => rfl,
    urlNetloc_scheme_independent,
    by decide⟩

/-- Witness for C6: concrete http and https URLs on one host get identical
rate-limiting behaviour, and the scheme-independence part at concrete
schemes. -/
theorem claim6_rate_limit_netloc_key_witness :
    respect_rate_limit 1 [] "http://example.com/a".toList 5 5 =
      respect_rate_limit 1 [] "https://example.com/b".toList 5 5 ∧
    urlNetloc ("http".toList ++ ':' :: '/' :: '/' :: "example.com/x".toList) =
      urlNetloc ("https".toList ++ ':' :: '/' :: '/' :: "example.com/x".toList) :=
  ⟨claim6_rate_limit_netloc_key.1 1 [] "http://example.com/a".toList
      "https://example.com/b".toList 5 5 (by decide),
    claim6_rate_limit_netloc_key.2.2.1 "http".toList "https".toList
      "example.com/x".toList (by decide) (by decide)⟩

/-- C8: when `can_fetch` denies a URL, `scrape_page` returns exactly the
robots sentinel and its trace shows only the robots check: neither the
plain fetch nor the JavaScript fetch runs. -/
theorem claim8_robots_denied_sentinel (w : Scraper) (url : Str)
    (h : can_fetch w.robots w.userAgent url = false) :
    scrape_page w url = (Except.ok robotsSentinel, [ScrapeEvent.robotsCheck]) ∧
    ScrapeEvent.fetchPlainCall ∉ (scrape_page w url).2 ∧
    ScrapeEvent.fetchJsCall ∉ (scrape_page w url).2 := by
  have he : scrape_page w url = (Except.ok robotsSentinel, [ScrapeEvent.robotsCheck]) := by
    simp [scrape_page, h]
  refine ⟨he, ?_, ?_⟩ <;> rw [he] <;> simp

/-- Witness for C8 with a concrete always-denying robots policy. -/
theorem claim8_robots_denied_sentinel_witness :
    scrape_page scraperDenied "http://x/".toList =
      (Except.ok robotsSentinel, [ScrapeEvent.robotsCheck]) :=
  (claim8_robots_denied_sentinel scraperDenied "http://x/".toList rfl).1

/-- C9: on the cleaned document, `extract_content` selects the first
present of main, article, section, div — in that priority order — and its
paragraphs come from inside the selected node only (or from the whole
document when none of the four exists): every selected paragraph is a
`<p>` element among the selected node's descendants. -/
theorem claim9_main_content_priority (soup : NodeList) :
    ((findFirstL (isTag "main".toList) soup).isSome = true →
        main_content soup = findFirstL (isTag "main".toList) soup) ∧
    (findFirstL (isTag "main".toList) soup = none →
      (findFirstL (isTag "article".toList) soup).isSome = true →
        main_content soup = findFirstL (isTag "article".toList) soup) ∧
    (findFirstL (isTag "main".toList) soup = none →
      findFirstL (isTag "article".toList) soup = none →
      (findFirstL (isTag "section".toList) soup).isSome = true →
        main_content soup = findFirstL (isTag "section".toList) soup) ∧
    (findFirstL (isTag "main".toList) soup = none →
      findFirstL (isTag "article".toList) soup = none →
      findFirstL (isTag "section".toList) soup = none →
        main_content soup = findFirstL (isTag "div".toList) soup) ∧
    (∀ n, main_content soup = some n →
        paragraphs soup = findAllL (isTag "p".toList) (childrenOf n) ∧
        ∀ q ∈ paragraphs soup, q ∈ descendants n ∧ isTag "p".toList q = true) ∧
    (main_content soup = none →
        paragraphs soup = findAllL (isTag "p".toList) soup ∧
        ∀ q ∈ paragraphs soup, q ∈ selfAndBelowL soup ∧ isTag "p".toList q = true) := by
  refine ⟨?_, ?_, ?_, ?_, ?_, ?_⟩
  · intro h
    obtain ⟨m, hm⟩ := Option.isSome_iff_exists.mp h
    unfold main_content
    rw [hm]
  · intro h0 h
    obtain ⟨m, hm⟩ := Option.isSome_iff_exists.mp h
    unfold main_content
    rw [h0, hm]
  · intro h0 h1 h
    obtain ⟨m, hm⟩ := Option.isSome_iff_exists.mp h
    unfold main_content
    rw [h0, h1, hm]
  · intro h0 h1 h2
    unfold main_content
    rw [h0, h1, h2]
  · intro n hn
    have hp : paragraphs soup = findAllL (isTag "p".toList) (childrenOf n) := by
      simp [paragraphs, hn]
    refine ⟨hp, fun q hq => ?_⟩
    rw [hp] at hq
    exact findAllL_sound _ _ q hq
  · intro hn
    have hp : paragraphs soup = findAllL (isTag "p".toList) soup := by
      simp [paragraphs, hn]
    refine ⟨hp, fun q hq => ?_⟩
    rw [hp] at hq
    exact findAllL_sound _ _ q hq

/-- Witness for C9: on a document holding a div before a main, the main
wins. -/
theorem claim9_main_content_priority_witness :
    main_content docWithMain = findFirstL (isTag "main".toList) docWithMain :=
  (claim9_main_content_priority docWithMain).1 (by decide)

/-- C10: an allowed URL whose (non-JS) fetch succeeds with an empty body is
reported with the same failure sentinel as a null fetch result: the
`if not html` truthiness test does not distinguish the two. -/
theorem claim10_empty_body_sentinel (w : Scraper) (url : Str)
    (hjs : w.enableJs = false) (hc : can_fetch w.robots w.userAgent url = true)
    (hf : w.fetchPlain url = some []) :
    scrape_page w url = (Except.ok (fetchFailSentinel url),
      [ScrapeEvent.robotsCheck, ScrapeEvent.fetchPlainCall]) := by
  simp [scrape_page, hc, hjs, hf]

/-- Witness for C10 with a concrete empty-body fetch. -/
theorem claim10_empty_body_sentinel_witness :
    scrape_page scraperEmptyBody "http://x/".toList =
      (Except.ok (fetchFailSentinel "http://x/".toList),
        [ScrapeEvent.robotsCheck, ScrapeEvent.fetchPlainCall]) :=
  claim10_empty_body_sentinel scraperEmptyBody "http://x/".toList rfl rfl rfl

end WebScraper
